import Mathlib

/-!
# Verification of the inventory-ledger core of the stock-management microservices

Shallow embedding of the stock service's ledger/aggregate code
(`services/stock/src/models/stockLevelModel.js`,
`services/stock/src/models/stockMovementModel.js`, the circuit-breaker
variant of `stockController.js`) and of the shared circuit-breaker
wrapper (`services/shared/utils/circuitBreaker.js`), together with
theorems settling the specification's testable properties.

JS numbers that hold quantities are modelled as `Int` (the request
validation layer enforces integer quantities with a minimum of 1);
timestamps are `Int` milliseconds since the epoch.
-/

namespace StockMS

/-- `MOVEMENT_TYPES` from `stockMovementModel.js`: `ENTRY = "entry"`,
`EXIT = "exit"`. -/
inductive MovementType where
  | entry
  | exit
  deriving DecidableEq, Repr

/-- A `StockMovement` document (`stockMovementModel.js`): productId, type,
quantity (schema minimum 1), reason, optional reference, performedBy,
timestamp (defaults to creation time). -/
structure Movement where
  productId : String
  type : MovementType
  quantity : Int
  reason : String
  reference : Option String
  performedBy : String
  timestamp : Int
  deriving DecidableEq, Repr

/-- A `StockLevel` document (`stockLevelModel.js`): unique productId,
currentQuantity (default 0), lastUpdated. -/
structure StockLevelDoc where
  productId : String
  currentQuantity : Int
  lastUpdated : Int
  deriving DecidableEq, Repr

/-- Result of running `stockLevelSchema.methods.updateQuantity(delta)`:
`inMemory` is the mongoose document object after the method finishes
(mutated even when the method throws), `saved` is `some d` when
`this.save()` was reached and persisted `d`, and `none` when the method
threw `"Insufficient stock"` before saving. -/
structure UpdateResult where
  inMemory : StockLevelDoc
  saved : Option StockLevelDoc
  deriving DecidableEq, Repr

/-- `updateQuantity` from `stockLevelModel.js` lines 27-34:
`this.currentQuantity += delta; if (this.currentQuantity < 0) throw ...;
this.lastUpdated = new Date(); return await this.save();`.
Note the in-place mutation happens before the negativity check, and
`lastUpdated` is only touched on the non-throwing path. -/
def updateQuantity (doc : StockLevelDoc) (delta : Int) (now : Int) : UpdateResult :=
  let doc1 : StockLevelDoc := { doc with currentQuantity := doc.currentQuantity + delta }
  if doc1.currentQuantity < 0 then
    { inMemory := doc1, saved := none }
  else
    let doc2 : StockLevelDoc := { doc1 with lastUpdated := now }
    { inMemory := doc2, saved := some doc2 }

/-- The stock service's database: the `StockLevel` collection (one document
per productId) and the append-only `StockMovement` collection. -/
structure DB where
  levels : List StockLevelDoc
  movements : List Movement
  deriving DecidableEq, Repr

def emptyDB : DB := { levels := [], movements := [] }

/-- `StockLevel.findOne({ productId })`. -/
def findLevel (db : DB) (pid : String) : Option StockLevelDoc :=
  db.levels.find? (fun l => l.productId == pid)

/-- The aggregate quantity the database records for `pid` (0 when no
document exists yet, matching the schema default). -/
def levelQty (db : DB) (pid : String) : Int :=
  match findLevel db pid with
  | some l => l.currentQuantity
  | none => 0

/-- `stockLevelSchema.statics.getOrCreate(productId)` (lines 36-45):
`findOne`, and on miss `create({ productId, currentQuantity: 0 })`.
Returns the document together with the possibly-extended database. -/
def getOrCreate (db : DB) (pid : String) (now : Int) : StockLevelDoc × DB :=
  match findLevel db pid with
  | some l => (l, db)
  | none =>
      let l : StockLevelDoc := { productId := pid, currentQuantity := 0, lastUpdated := now }
      (l, { db with levels := db.levels ++ [l] })

/-- Persisting a saved `StockLevel` document: the stored document with the
same productId is overwritten with the saved copy. -/
def replaceLevel (ls : List StockLevelDoc) (l' : StockLevelDoc) : List StockLevelDoc :=
  ls.map (fun x => if x.productId == l'.productId then l' else x)

def saveLevel (db : DB) (l' : StockLevelDoc) : DB :=
  { db with levels := replaceLevel db.levels l' }

/-- Well-formedness maintained by the `unique: true` index on
`StockLevel.productId`: no two level documents share a productId. -/
def DB.wf (db : DB) : Prop :=
  (db.levels.map (fun l => l.productId)).Nodup

/-! ## Remote product lookup through the circuit breaker
(`stockController.js`, circuit-breaker variant, and
`services/shared/utils/circuitBreaker.js`). -/

/-- A product-shaped JS object as the stock controller reads it: the
`_isFallback`, `name`, `sku` and `lowStockThreshold` properties (absent
properties are `none`; a real product from the products service has no
`_isFallback` key, which JS reads as the falsy `undefined`, modelled as
`isFallback := false`). -/
structure ProductObj where
  isFallback : Bool
  name : Option String
  sku : Option String
  lowStockThreshold : Option Int
  deriving DecidableEq, Repr

/-- The fallback object the stock controller configures on the
products-service breaker (`stockController.js` lines 293-300):
`{ _isFallback: true, name: "Unknown (products-service unavailable)",
sku: "N/A", lowStockThreshold: DEFAULT_LOW_STOCK_THRESHOLD || 10 }`.
It has no `data` and no `product` property. -/
def productsFallbackObj : ProductObj :=
  { isFallback := true
    name := some "Unknown (products-service unavailable)"
    sku := some "N/A"
    lowStockThreshold := some 10 }

/-- The value `await productsBreaker.execute(config)` settles with, as seen
by `getProductInfo`: we record the `data` and `product` properties of the
resolved value (the only ones the controller reads). A successful HTTP
call resolves with the response body `{ success, data: product }`, i.e.
`dataProp = some product`; a fallback invocation resolves with the
fallback object itself, which has neither property. -/
structure ExecData where
  dataProp : Option ProductObj
  productProp : Option ProductObj
  deriving DecidableEq, Repr

/-- `ExecData` for a successful products-service response
`{ success, data: product }`. -/
def execDataOfSuccess (p : ProductObj) : ExecData :=
  { dataProp := some p, productProp := none }

/-- `ExecData` for the configured fallback object: `productsFallbackObj`
has no `data` key and no `product` key, so both projections are absent. -/
def execDataOfFallback : ExecData :=
  { dataProp := none, productProp := none }

/-- Outcome of `await productsBreaker.execute(config)`: it either resolved
with a value or rejected (fallback itself threw / no fallback). -/
inductive ExecOutcome where
  | resolved (v : ExecData)
  | threw
  deriving DecidableEq, Repr

/-- `getProductInfo` from the circuit-breaker `stockController.js`
(lines 307-328): on resolution returns
`data?.data || data?.product || null` (objects are truthy, so this is the
first present property, else null); any rejection is caught and mapped to
`null`. -/
def getProductInfo : ExecOutcome → Option ProductObj
  | .resolved v => v.dataProp.orElse (fun _ => v.productProp)
  | .threw => none

/-- An inbound stock entry/exit requests body plus the authenticated
user id, after the Joi validation layer (`stockValidation.js`: quantity is
an integer ≥ 1, productId and reason non-empty). -/
structure StockRequest where
  productId : String
  quantity : Int
  reason : String
  reference : Option String
  userId : String
  deriving DecidableEq, Repr

/-- The HTTP responses of `addStockEntry` / `removeStockExit`:
404 "Product not found"; 400 "Insufficient stock" with `available` and
`requested`; 201 created with the movement, `currentStock`, and the
degraded-mode `warning` flag (present iff `product._isFallback`);
or the error handler (`next(err)` via `asyncHandler`) when
`updateQuantity` throws. -/
inductive StockResponse where
  | notFound
  | insufficient (available requested : Int)
  | entryCreated (movement : Movement) (currentStock : Int) (degraded : Bool)
  | exitCreated (movement : Movement) (currentStock : Int) (degraded : Bool)
  | serverError
  deriving DecidableEq, Repr

/-- `addStockEntry` (circuit-breaker `stockController.js` lines 335-382):
resolve the product (404 when `getProductInfo` yields null), `getOrCreate`
the level, create the ENTRY movement, `updateQuantity(quantity)`, respond
201 with `currentStock: stockLevel.currentQuantity` (the mutated document)
and a warning when the product came from the fallback. `lookup` is the
settled outcome of the breaker call for this request. -/
def addStockEntry (req : StockRequest) (lookup : ExecOutcome) (db : DB) (now : Int) :
    StockResponse × DB :=
  match getProductInfo lookup with
  | none => (.notFound, db)
  | some product =>
      let sldb := getOrCreate db req.productId now
      let movement : Movement :=
        { productId := req.productId, type := .entry, quantity := req.quantity
          reason := req.reason, reference := req.reference, performedBy := req.userId
          timestamp := now }
      let db2 : DB := { sldb.2 with movements := sldb.2.movements ++ [movement] }
      let ur := updateQuantity sldb.1 req.quantity now
      match ur.saved with
      | none => (.serverError, db2)
      | some savedDoc =>
          (.entryCreated movement ur.inMemory.currentQuantity product.isFallback,
            saveLevel db2 savedDoc)

/-- `removeStockExit` (circuit-breaker `stockController.js` lines 387-441):
like `addStockEntry` but rejects with 400 (available/requested) when
`stockLevel.currentQuantity < quantity`, before creating any movement;
otherwise creates the EXIT movement and applies `updateQuantity(-quantity)`. -/
def removeStockExit (req : StockRequest) (lookup : ExecOutcome) (db : DB) (now : Int) :
    StockResponse × DB :=
  match getProductInfo lookup with
  | none => (.notFound, db)
  | some product =>
      let sldb := getOrCreate db req.productId now
      if sldb.1.currentQuantity < req.quantity then
        (.insufficient sldb.1.currentQuantity req.quantity, sldb.2)
      else
        let movement : Movement :=
          { productId := req.productId, type := .exit, quantity := req.quantity
            reason := req.reason, reference := req.reference, performedBy := req.userId
            timestamp := now }
        let db2 : DB := { sldb.2 with movements := sldb.2.movements ++ [movement] }
        let ur := updateQuantity sldb.1 (-req.quantity) now
        match ur.saved with
        | none => (.serverError, db2)
        | some savedDoc =>
            (.exitCreated movement ur.inMemory.currentQuantity product.isFallback,
              saveLevel db2 savedDoc)

/-! ## The ledger invariant (spec §8): per item,
`currentQuantity = Σ(ENTRY.quantity) − Σ(EXIT.quantity)` and
`currentQuantity ≥ 0`. -/

/-- Sum of ENTRY quantities recorded for `pid`. -/
def entrySum (ms : List Movement) (pid : String) : Int :=
  ((ms.filter (fun m => m.productId == pid && m.type == MovementType.entry)).map
    (fun m => m.quantity)).sum

/-- Sum of EXIT quantities recorded for `pid`. -/
def exitSum (ms : List Movement) (pid : String) : Int :=
  ((ms.filter (fun m => m.productId == pid && m.type == MovementType.exit)).map
    (fun m => m.quantity)).sum

/-- The spec's ledger/aggregate invariant, per item. -/
def Inv (db : DB) : Prop :=
  ∀ pid, levelQty db pid = entrySum db.movements pid - exitSum db.movements pid ∧
    0 ≤ levelQty db pid

/-- A completed stock operation: an entry or an exit request together with
the settled product lookup and the wall-clock time of the request. -/
inductive Op where
  | entry (req : StockRequest) (lookup : ExecOutcome) (now : Int)
  | exit (req : StockRequest) (lookup : ExecOutcome) (now : Int)
  deriving DecidableEq, Repr

def Op.quantity : Op → Int
  | .entry req _ _ => req.quantity
  | .exit req _ _ => req.quantity

/-- The database after a completed operation (responses discarded). -/
def applyOp (db : DB) : Op → DB
  | .entry req lookup now => (addStockEntry req lookup db now).2
  | .exit req lookup now => (removeStockExit req lookup db now).2

/-- The database after a sequence of completed operations. -/
def runOps (db : DB) (ops : List Op) : DB :=
  ops.foldl applyOp db

/-! ## Helper lemmas on the level collection and the ledger sums -/

theorem findLevel_pid {db : DB} {pid : String} {l : StockLevelDoc}
    (h : findLevel db pid = some l) : l.productId = pid := by
  have := List.find?_some h
  simpa using this

theorem findLevel_not_mem_map {db : DB} {pid : String}
    (h : findLevel db pid = none) : pid ∉ db.levels.map (fun l => l.productId) := by
  intro hmem
  rcases List.mem_map.mp hmem with ⟨l, hl, hpid⟩
  have := List.find?_eq_none.mp h l hl
  simp [hpid] at this

theorem replaceLevel_map_pid (ls : List StockLevelDoc) (l' : StockLevelDoc) :
    (replaceLevel ls l').map (fun l => l.productId) = ls.map (fun l => l.productId) := by
  induction ls with
  | nil => rfl
  | cons x xs ih =>
      by_cases hx : x.productId = l'.productId
      · simp [replaceLevel, hx] at ih ⊢
        exact ih
      · simp [replaceLevel, hx] at ih ⊢
        exact ih

theorem replaceLevel_cons (x : StockLevelDoc) (xs : List StockLevelDoc)
    (l' : StockLevelDoc) :
    replaceLevel (x :: xs) l' =
      (if x.productId == l'.productId then l' else x) :: replaceLevel xs l' := rfl

theorem replaceLevel_find_self {ls : List StockLevelDoc} {l0 : StockLevelDoc}
    (l' : StockLevelDoc)
    (h : ls.find? (fun x => x.productId == l'.productId) = some l0) :
    (replaceLevel ls l').find? (fun x => x.productId == l'.productId) = some l' := by
  induction ls with
  | nil => simp [List.find?] at h
  | cons x xs ih =>
      rw [replaceLevel_cons]
      by_cases hx : x.productId = l'.productId
      · rw [if_pos (by simp [hx])]
        exact List.find?_cons_of_pos _ (by simp)
      · rw [if_neg (by simp [hx])]
        rw [List.find?_cons_of_neg _ (by simp [hx])] at h
        rw [List.find?_cons_of_neg _ (by simp [hx])]
        exact ih h

theorem replaceLevel_find_other {pid : String} (ls : List StockLevelDoc)
    (l' : StockLevelDoc) (h : pid ≠ l'.productId) :
    (replaceLevel ls l').find? (fun x => x.productId == pid) =
      ls.find? (fun x => x.productId == pid) := by
  induction ls with
  | nil => rfl
  | cons x xs ih =>
      rw [replaceLevel_cons]
      by_cases hx : x.productId = l'.productId
      · have hlp : ¬ l'.productId = pid := fun hc => h hc.symm
        have hxp : ¬ x.productId = pid := by rw [hx]; exact hlp
        rw [if_pos (by simp [hx])]
        rw [List.find?_cons_of_neg _ (by simp [hlp])]
        rw [List.find?_cons_of_neg _ (by simp [hxp])]
        exact ih
      · rw [if_neg (by simp [hx])]
        by_cases hxe : x.productId = pid
        · rw [List.find?_cons_of_pos _ (by simp [hxe])]
          rw [List.find?_cons_of_pos _ (by simp [hxe])]
        · rw [List.find?_cons_of_neg _ (by simp [hxe])]
          rw [List.find?_cons_of_neg _ (by simp [hxe])]
          exact ih

theorem entrySum_append (ms : List Movement) (m : Movement) (pid : String) :
    entrySum (ms ++ [m]) pid =
      entrySum ms pid +
        (if m.productId = pid ∧ m.type = MovementType.entry then m.quantity else 0) := by
  unfold entrySum
  rw [List.filter_append, List.map_append, List.sum_append]
  by_cases h1 : m.productId = pid <;> by_cases h2 : m.type = MovementType.entry <;>
    simp [h1, h2]

theorem exitSum_append (ms : List Movement) (m : Movement) (pid : String) :
    exitSum (ms ++ [m]) pid =
      exitSum ms pid +
        (if m.productId = pid ∧ m.type = MovementType.exit then m.quantity else 0) := by
  unfold exitSum
  rw [List.filter_append, List.map_append, List.sum_append]
  by_cases h1 : m.productId = pid <;> by_cases h2 : m.type = MovementType.exit <;>
    simp [h1, h2]

theorem getOrCreate_eq_found {db : DB} {pid : String} {l : StockLevelDoc}
    (now : Int) (h : findLevel db pid = some l) :
    getOrCreate db pid now = (l, db) := by
  unfold getOrCreate; rw [h]

theorem getOrCreate_eq_missing {db : DB} {pid : String} (now : Int)
    (h : findLevel db pid = none) :
    getOrCreate db pid now =
      (⟨pid, 0, now⟩, { db with levels := db.levels ++ [⟨pid, 0, now⟩] }) := by
  unfold getOrCreate; rw [h]

theorem levelQty_append_record {db : DB} {pid : String}
    (hnone : findLevel db pid = none) {new : StockLevelDoc} (hpid : new.productId = pid)
    (pid' : String) :
    levelQty { db with levels := db.levels ++ [new] } pid' =
      if pid' = pid then new.currentQuantity else levelQty db pid' := by
  by_cases he : pid' = pid
  · subst he
    unfold findLevel at hnone
    unfold levelQty findLevel
    simp only [List.find?_append, hnone, Option.none_or]
    rw [List.find?_cons_of_pos _ (by simp [hpid])]
    simp
  · unfold levelQty findLevel
    simp only [List.find?_append]
    rw [show ([new].find? (fun x => x.productId == pid')) = none by
      rw [List.find?_cons_of_neg _
        (by simp [hpid]; exact fun hc => he hc.symm)]; rfl]
    simp [he]

theorem levelQty_replace {db : DB} {pid : String} {l : StockLevelDoc}
    (hfind : findLevel db pid = some l) {doc2 : StockLevelDoc}
    (hpid : doc2.productId = pid) (pid' : String) :
    levelQty (saveLevel db doc2) pid' =
      if pid' = pid then doc2.currentQuantity else levelQty db pid' := by
  by_cases he : pid' = pid
  · subst he
    unfold findLevel at hfind
    unfold levelQty saveLevel findLevel
    have h' : db.levels.find? (fun x => x.productId == doc2.productId) = some l := by
      rw [hpid]; exact hfind
    rw [show (fun (x : StockLevelDoc) => x.productId == pid') =
        (fun (x : StockLevelDoc) => x.productId == doc2.productId) by rw [hpid]]
    rw [replaceLevel_find_self doc2 h']
    simp
  · unfold levelQty saveLevel findLevel
    rw [replaceLevel_find_other db.levels doc2 (by rw [hpid]; exact he)]
    simp [he]

theorem saveLevel_wf {db : DB} (doc2 : StockLevelDoc) (hwf : db.wf) :
    (saveLevel db doc2).wf := by
  unfold DB.wf at hwf ⊢
  show ((replaceLevel db.levels doc2).map (fun l => l.productId)).Nodup
  rw [replaceLevel_map_pid]
  exact hwf

/-- `getOrCreate` preserves well-formedness and the ledger invariant, does
not touch the movements, does not change any observable aggregate value,
and hands back a document recording the item's current aggregate. -/
theorem getOrCreate_spec {db : DB} (pid : String) (now : Int)
    (hwf : db.wf) (hinv : Inv db) :
    (getOrCreate db pid now).2.wf ∧ Inv (getOrCreate db pid now).2 ∧
      findLevel (getOrCreate db pid now).2 pid = some (getOrCreate db pid now).1 ∧
      (getOrCreate db pid now).1.currentQuantity = levelQty db pid ∧
      (getOrCreate db pid now).1.productId = pid ∧
      (getOrCreate db pid now).2.movements = db.movements ∧
      (∀ pid', levelQty (getOrCreate db pid now).2 pid' = levelQty db pid') := by
  rcases hfind : findLevel db pid with _ | l
  · rw [getOrCreate_eq_missing now hfind]
    have hq0 : levelQty db pid = 0 := by unfold levelQty; rw [hfind]
    have hqty : ∀ pid', levelQty
        { db with levels := db.levels ++ [(⟨pid, 0, now⟩ : StockLevelDoc)] } pid' =
        if pid' = pid then 0 else levelQty db pid' :=
      fun pid' => levelQty_append_record hfind rfl pid'
    refine ⟨?_, ?_, ?_, ?_, rfl, rfl, ?_⟩
    · show (((db.levels ++ [(⟨pid, 0, now⟩ : StockLevelDoc)]).map
        (fun l => l.productId))).Nodup
      simp only [List.map_append, List.map_cons, List.map_nil]
      rw [List.nodup_append]
      refine ⟨hwf, List.nodup_singleton _, ?_⟩
      intro a ha hb
      simp only [List.mem_singleton] at hb
      subst hb
      exact findLevel_not_mem_map hfind ha
    · intro pid'
      rw [hqty pid']
      by_cases he : pid' = pid
      · subst he
        rw [if_pos rfl]
        have := (hinv pid').1
        rw [hq0] at this
        exact ⟨this, le_refl 0⟩
      · rw [if_neg he]
        exact hinv pid'
    · show findLevel { db with levels := db.levels ++ [(⟨pid, 0, now⟩ : StockLevelDoc)] }
        pid = some ⟨pid, 0, now⟩
      unfold findLevel at hfind ⊢
      simp only [List.find?_append, hfind, Option.none_or]
      exact List.find?_cons_of_pos _ (by simp)
    · simp [hq0]
    · intro pid'
      rw [hqty pid']
      by_cases he : pid' = pid
      · simp [he, hq0]
      · simp [he]
  · rw [getOrCreate_eq_found now hfind]
    exact ⟨hwf, hinv, hfind, by unfold levelQty; rw [hfind], findLevel_pid hfind, rfl,
      fun _ => rfl⟩

/-- Appending one movement for `pid` and saving the correspondingly
updated level document preserves well-formedness and the invariant. -/
theorem record_and_save_spec {db : DB} {pid : String} {l : StockLevelDoc}
    (hwf : db.wf) (hinv : Inv db) (hfind : findLevel db pid = some l)
    {mv : Movement} (hmv : mv.productId = pid) {d : Int}
    (hd : (mv.type = MovementType.entry ∧ d = mv.quantity) ∨
      (mv.type = MovementType.exit ∧ d = -mv.quantity))
    (hnn : 0 ≤ l.currentQuantity + d) {doc2 : StockLevelDoc}
    (hdoc2p : doc2.productId = pid)
    (hdoc2q : doc2.currentQuantity = l.currentQuantity + d) :
    (saveLevel { db with movements := db.movements ++ [mv] } doc2).wf ∧
      Inv (saveLevel { db with movements := db.movements ++ [mv] } doc2) := by
  have hfind2 : findLevel { db with movements := db.movements ++ [mv] } pid = some l :=
    hfind
  have hlq : levelQty db pid = l.currentQuantity := by unfold levelQty; rw [hfind]
  constructor
  · exact saveLevel_wf doc2 hwf
  · intro pid'
    have hqty := levelQty_replace hfind2 hdoc2p pid'
    have hmov : (saveLevel { db with movements := db.movements ++ [mv] } doc2).movements =
        db.movements ++ [mv] := rfl
    have hq2 : levelQty { db with movements := db.movements ++ [mv] } pid' =
        levelQty db pid' := rfl
    rw [hqty, hmov, hq2, entrySum_append, exitSum_append]
    by_cases he : pid' = pid
    · subst he
      have hib := hinv pid'
      rw [hlq] at hib
      rcases hd with ⟨ht, hdq⟩ | ⟨ht, hdq⟩
      · have hxne : ¬ (mv.productId = pid' ∧ mv.type = MovementType.exit) := by
          rintro ⟨-, hc⟩; rw [ht] at hc; exact MovementType.noConfusion hc
        rw [if_pos rfl, if_pos ⟨hmv, ht⟩, if_neg hxne, hdoc2q, hdq]
        omega
      · have hene : ¬ (mv.productId = pid' ∧ mv.type = MovementType.entry) := by
          rintro ⟨-, hc⟩; rw [ht] at hc; exact MovementType.noConfusion hc
        rw [if_pos rfl, if_neg hene, if_pos ⟨hmv, ht⟩, hdoc2q, hdq]
        omega
    · have hne : ¬ (mv.productId = pid' ∧ mv.type = MovementType.entry) := by
        rintro ⟨hc, -⟩; rw [hmv] at hc; exact he hc.symm
      have hne' : ¬ (mv.productId = pid' ∧ mv.type = MovementType.exit) := by
        rintro ⟨hc, -⟩; rw [hmv] at hc; exact he hc.symm
      rw [if_neg he, if_neg hne, if_neg hne', add_zero, add_zero]
      exact hinv pid'

theorem updateQuantity_eq_ok {doc : StockLevelDoc} {delta : Int} (now : Int)
    (h : 0 ≤ doc.currentQuantity + delta) :
    updateQuantity doc delta now =
      { inMemory := ⟨doc.productId, doc.currentQuantity + delta, now⟩,
        saved := some ⟨doc.productId, doc.currentQuantity + delta, now⟩ } := by
  unfold updateQuantity
  rw [if_neg (by simp; omega)]

theorem updateQuantity_eq_err {doc : StockLevelDoc} {delta : Int} (now : Int)
    (h : doc.currentQuantity + delta < 0) :
    updateQuantity doc delta now =
      { inMemory := ⟨doc.productId, doc.currentQuantity + delta, doc.lastUpdated⟩,
        saved := none } := by
  unfold updateQuantity
  rw [if_pos (by simp; omega)]

/-- The parts of `getOrCreate`'s behaviour that need no well-formedness
assumption: the returned document records the item's current aggregate
(zero on first access), the movements are untouched, no aggregate value
changes, and the document is afterwards present in the store. -/
theorem getOrCreate_basic (db : DB) (pid : String) (now : Int) :
    (getOrCreate db pid now).1.currentQuantity = levelQty db pid ∧
      (getOrCreate db pid now).1.productId = pid ∧
      (getOrCreate db pid now).2.movements = db.movements ∧
      (∀ pid', levelQty (getOrCreate db pid now).2 pid' = levelQty db pid') := by
  rcases hfind : findLevel db pid with _ | l
  · rw [getOrCreate_eq_missing now hfind]
    have hq0 : levelQty db pid = 0 := by unfold levelQty; rw [hfind]
    refine ⟨by simp [hq0], rfl, rfl, ?_⟩
    intro pid'
    rw [levelQty_append_record hfind rfl pid']
    by_cases he : pid' = pid
    · simp [he, hq0]
    · simp [he]
  · rw [getOrCreate_eq_found now hfind]
    exact ⟨by unfold levelQty; rw [hfind], findLevel_pid hfind, rfl, fun _ => rfl⟩

/-- A completed `addStockEntry` preserves well-formedness and the ledger
invariant (the request validation layer guarantees `1 ≤ quantity`). -/
theorem addStockEntry_preserves (req : StockRequest) (lookup : ExecOutcome) (db : DB)
    (now : Int) (hq : 1 ≤ req.quantity) (hwf : db.wf) (hinv : Inv db) :
    (addStockEntry req lookup db now).2.wf ∧ Inv (addStockEntry req lookup db now).2 := by
  rcases hl : getProductInfo lookup with _ | p
  · simp only [addStockEntry, hl]
    exact ⟨hwf, hinv⟩
  · obtain ⟨hwfA, hinvA, hfindA, hqtyA, hpidA, hmovA, hallA⟩ :=
      getOrCreate_spec req.productId now hwf hinv
    have h0 : 0 ≤ (getOrCreate db req.productId now).1.currentQuantity := by
      rw [hqtyA]; exact (hinv req.productId).2
    have hupd := @updateQuantity_eq_ok ((getOrCreate db req.productId now).1)
      req.quantity now (by omega)
    simp only [addStockEntry, hl, hupd]
    exact record_and_save_spec hwfA hinvA hfindA rfl (Or.inl ⟨rfl, rfl⟩)
      (by simp; omega) hpidA rfl

/-- A completed `removeStockExit` preserves well-formedness and the ledger
invariant. -/
theorem removeStockExit_preserves (req : StockRequest) (lookup : ExecOutcome) (db : DB)
    (now : Int) (_hq : 1 ≤ req.quantity) (hwf : db.wf) (hinv : Inv db) :
    (removeStockExit req lookup db now).2.wf ∧
      Inv (removeStockExit req lookup db now).2 := by
  rcases hl : getProductInfo lookup with _ | p
  · simp only [removeStockExit, hl]
    exact ⟨hwf, hinv⟩
  · obtain ⟨hwfA, hinvA, hfindA, hqtyA, hpidA, hmovA, hallA⟩ :=
      getOrCreate_spec req.productId now hwf hinv
    by_cases hs : (getOrCreate db req.productId now).1.currentQuantity < req.quantity
    · simp only [removeStockExit, hl, if_pos hs]
      exact ⟨hwfA, hinvA⟩
    · have hupd := @updateQuantity_eq_ok ((getOrCreate db req.productId now).1)
        (-req.quantity) now (by omega)
      simp only [removeStockExit, hl, if_neg hs, hupd]
      exact record_and_save_spec hwfA hinvA hfindA rfl (Or.inr ⟨rfl, rfl⟩)
        (by simp; omega) hpidA rfl

theorem emptyDB_wf : emptyDB.wf := List.nodup_nil

theorem emptyDB_inv : Inv emptyDB := fun _ => ⟨rfl, le_refl 0⟩

/-- Any sequence of completed operations preserves well-formedness and the
invariant. -/
theorem runOps_preserves (ops : List Op) (h : ∀ op ∈ ops, 1 ≤ op.quantity) (db : DB)
    (hwf : db.wf) (hinv : Inv db) : (runOps db ops).wf ∧ Inv (runOps db ops) := by
  induction ops generalizing db with
  | nil => exact ⟨hwf, hinv⟩
  | cons op ops ih =>
      have hop : 1 ≤ op.quantity := h op (List.mem_cons_self op ops)
      have hstep : (applyOp db op).wf ∧ Inv (applyOp db op) := by
        cases op with
        | entry req lookup now => exact addStockEntry_preserves req lookup db now hop hwf hinv
        | exit req lookup now => exact removeStockExit_preserves req lookup db now hop hwf hinv
      exact ih (fun o ho => h o (List.mem_cons_of_mem op ho)) (applyOp db op)
        hstep.1 hstep.2

/-- `getByProduct` from `stockMovementModel.js`: movements of a product,
most-recent-first, limited. Sorting is by descending timestamp
(insertion sort; Mongo's sort is modelled up to tie order). -/
def insertByTimestampDesc (m : Movement) : List Movement → List Movement
  | [] => [m]
  | x :: xs =>
      if x.timestamp ≤ m.timestamp then m :: x :: xs else x :: insertByTimestampDesc m xs

def getByProduct (ms : List Movement) (pid : String) (limit : Nat) : List Movement :=
  (((ms.filter (fun m => m.productId == pid)).foldr insertByTimestampDesc []).take limit)

/-- Response of `GET /api/stock/product/:id`. -/
structure LevelResponse where
  productId : String
  currentQuantity : Int
  lastUpdated : Int
  recentMovements : List Movement
  deriving DecidableEq, Repr

/-- `getProductStockLevel` (circuit-breaker `stockController.js` lines
446-459): `getOrCreate` the level, fetch the 10 most recent movements,
respond with the current quantity. The handler performs no remote call
and, modulo storage, cannot fail. -/
def getProductStockLevel (db : DB) (pid : String) (now : Int) : LevelResponse × DB :=
  let g := getOrCreate db pid now
  ({ productId := pid, currentQuantity := g.1.currentQuantity,
     lastUpdated := g.1.lastUpdated, recentMovements := getByProduct g.2.movements pid 10 },
   g.2)

/-! ## Claim theorems -/

/-- **C1.** For every item, after every completed operation starting from
the empty store, the item's aggregate `currentQuantity` equals the sum of
ENTRY quantities minus the sum of EXIT quantities over that item's
recorded movement history, and `currentQuantity ≥ 0` (`Inv`); the
hypothesis `1 ≤ quantity` is the guarantee of the request-validation
layer (`stockValidation.js`, schema minimum 1). Since `ops` is an
arbitrary sequence, the invariant holds at every intermediate point. -/
theorem c1_ledger_invariant (ops : List Op) (h : ∀ op ∈ ops, 1 ≤ op.quantity) :
    Inv (runOps emptyDB ops) :=
  (runOps_preserves ops h emptyDB emptyDB_wf emptyDB_inv).2

def sampleProduct : ProductObj :=
  { isFallback := false, name := some "Widget", sku := some "W-1",
    lowStockThreshold := some 10 }

def sampleLookup : ExecOutcome := .resolved (execDataOfSuccess sampleProduct)

theorem c1_ledger_invariant_witness :
    (∀ op ∈ [Op.entry ⟨"X", 10, "restock", none, "u1"⟩ sampleLookup 0,
        Op.exit ⟨"X", 4, "sale", none, "u1"⟩ sampleLookup 1], 1 ≤ op.quantity) ∧
      Inv (runOps emptyDB [Op.entry ⟨"X", 10, "restock", none, "u1"⟩ sampleLookup 0,
        Op.exit ⟨"X", 4, "sale", none, "u1"⟩ sampleLookup 1]) :=
  ⟨by decide, c1_ledger_invariant _ (by decide)⟩

/-- **C2.** When the requested exit quantity exceeds the item's aggregate,
`removeStockExit` responds 400 "Insufficient stock" carrying the
available and requested amounts, appends no movement, and leaves the
item's aggregate unchanged. -/
theorem c2_insufficient_exit (req : StockRequest) (lookup : ExecOutcome) (db : DB)
    (now : Int) (p : ProductObj) (hl : getProductInfo lookup = some p)
    (hq : levelQty db req.productId < req.quantity) :
    (removeStockExit req lookup db now).1 =
        .insufficient (levelQty db req.productId) req.quantity ∧
      (removeStockExit req lookup db now).2.movements = db.movements ∧
      levelQty (removeStockExit req lookup db now).2 req.productId =
        levelQty db req.productId := by
  obtain ⟨hqtyA, hpidA, hmovA, hallA⟩ := getOrCreate_basic db req.productId now
  have hs : (getOrCreate db req.productId now).1.currentQuantity < req.quantity := by
    rw [hqtyA]; exact hq
  simp only [removeStockExit, hl, if_pos hs]
  exact ⟨by rw [hqtyA], hmovA, hallA req.productId⟩

def dbFive : DB :=
  { levels := [⟨"X", 5, 0⟩],
    movements := [⟨"X", .entry, 5, "restock", none, "u1", 0⟩] }

theorem c2_insufficient_exit_witness :
    (removeStockExit ⟨"X", 8, "sale", none, "u1"⟩ sampleLookup dbFive 50).1 =
        .insufficient 5 8 ∧
      (removeStockExit ⟨"X", 8, "sale", none, "u1"⟩ sampleLookup dbFive 50).2.movements =
        dbFive.movements ∧
      levelQty (removeStockExit ⟨"X", 8, "sale", none, "u1"⟩ sampleLookup dbFive 50).2
          "X" = 5 := by
  have h := c2_insufficient_exit ⟨"X", 8, "sale", none, "u1"⟩ sampleLookup dbFive 50
    sampleProduct (by decide) (by decide)
  have h5 : levelQty dbFive "X" = 5 := by decide
  rw [h5] at h
  exact h

/-- **C8.** `getLevel` (the `getOrCreate`-backed
`getProductStockLevel` handler): the response always reports the item's
aggregate as stored before the call (so a first access, where no record
exists, observes quantity 0); a first access creates a zero-quantity
record; a later access creates nothing and returns the stored document.
The handler is total in the embedding (it can only fail on storage
errors, which are outside the model). -/
theorem c8_get_level (db : DB) (pid : String) (now : Int) :
    (getProductStockLevel db pid now).1.currentQuantity = levelQty db pid ∧
      (findLevel db pid = none →
        (getProductStockLevel db pid now).1.currentQuantity = 0 ∧
          findLevel (getProductStockLevel db pid now).2 pid = some ⟨pid, 0, now⟩) ∧
      (∀ l, findLevel db pid = some l → (getProductStockLevel db pid now).2 = db) := by
  obtain ⟨hqtyA, hpidA, hmovA, hallA⟩ := getOrCreate_basic db pid now
  refine ⟨hqtyA, ?_, ?_⟩
  · intro hnone
    constructor
    · show (getOrCreate db pid now).1.currentQuantity = 0
      rw [hqtyA]; unfold levelQty; rw [hnone]
    · show findLevel (getOrCreate db pid now).2 pid = some ⟨pid, 0, now⟩
      rw [getOrCreate_eq_missing now hnone]
      unfold findLevel at hnone ⊢
      simp only [List.find?_append, hnone, Option.none_or]
      exact List.find?_cons_of_pos _ (by simp)
  · intro l hsome
    show (getOrCreate db pid now).2 = db
    rw [getOrCreate_eq_found now hsome]

theorem c8_get_level_witness :
    findLevel emptyDB "X" = none ∧
      (getProductStockLevel emptyDB "X" 7).1.currentQuantity = 0 ∧
        findLevel (getProductStockLevel emptyDB "X" 7).2 "X" = some ⟨"X", 0, 7⟩ :=
  ⟨rfl, (c8_get_level emptyDB "X" 7).2.1 rfl⟩

/-- **C10.** When `currentQuantity + delta < 0`, `updateQuantity(delta)`
throws before reaching `save()` (so nothing is persisted: `saved = none`),
but the in-memory document's `currentQuantity` has already been mutated to
the negative value. -/
theorem c10_mutates_before_check (doc : StockLevelDoc) (delta : Int) (now : Int)
    (h : doc.currentQuantity + delta < 0) :
    (updateQuantity doc delta now).saved = none ∧
      (updateQuantity doc delta now).inMemory.currentQuantity =
        doc.currentQuantity + delta ∧
      (updateQuantity doc delta now).inMemory.currentQuantity < 0 := by
  rw [updateQuantity_eq_err now h]
  exact ⟨rfl, rfl, h⟩

theorem c10_mutates_before_check_witness :
    ((5 : Int) + -8 < 0) ∧
      ((updateQuantity ⟨"X", 5, 0⟩ (-8) 9).saved = none ∧
        (updateQuantity ⟨"X", 5, 0⟩ (-8) 9).inMemory.currentQuantity = 5 + -8 ∧
        (updateQuantity ⟨"X", 5, 0⟩ (-8) 9).inMemory.currentQuantity < 0) :=
  ⟨by decide, c10_mutates_before_check ⟨"X", 5, 0⟩ (-8) 9 (by decide)⟩

/-! ## Stock summary (`getStockSummary`) -/

/-- `parseInt(process.env.DEFAULT_LOW_STOCK_THRESHOLD) || 10` with the
variable unset. -/
def defaultLowStockThreshold : Int := 10

def msPerDay : Int := 24 * 60 * 60 * 1000

structure Summary where
  totalProducts : Nat
  totalQuantity : Int
  lowStockCount : Nat
  recentMovementsCount : Nat
  deriving DecidableEq, Repr

/-- `getStockSummary` (circuit-breaker `stockController.js` lines
538-561): `StockLevel.countDocuments()`, the `$sum` aggregate over
`currentQuantity` (`[0]?.total || 0` yields 0 on an empty collection),
`countDocuments({ currentQuantity: { $lte: threshold } })`, and
`StockMovement.countDocuments({ timestamp: { $gte: yesterday } })` with
`yesterday = Date.now() - 24*60*60*1000`. The handler reads only the two
local collections; it makes no `getProductInfo`/breaker call, which the
embedding reflects by its type `DB → Int → Summary`. -/
def getStockSummary (db : DB) (now : Int) : Summary :=
  let yesterday := now - msPerDay
  { totalProducts := db.levels.length
    totalQuantity := (db.levels.map (fun l => l.currentQuantity)).sum
    lowStockCount :=
      (db.levels.filter (fun l => l.currentQuantity ≤ defaultLowStockThreshold)).length
    recentMovementsCount :=
      (db.movements.filter (fun m => yesterday ≤ m.timestamp)).length }

/-- The productIds that have a tracked stock record. -/
def trackedItems (db : DB) : List String :=
  db.levels.map (fun l => l.productId)

theorem find?_self_of_nodup (ls : List StockLevelDoc)
    (hnd : (ls.map (fun l => l.productId)).Nodup) {l : StockLevelDoc} (hl : l ∈ ls) :
    ls.find? (fun x => x.productId == l.productId) = some l := by
  induction ls with
  | nil => cases hl
  | cons x xs ih =>
      rcases List.mem_cons.mp hl with he | hm
      · subst he
        exact List.find?_cons_of_pos _ (by simp)
      · have hx : x.productId ∉ xs.map (fun l => l.productId) :=
          (List.nodup_cons.mp (by simpa using hnd)).1
        have hne : ¬ (x.productId == l.productId) = true := by
          simp only [beq_iff_eq]
          intro hc
          exact hx (hc ▸ List.mem_map.mpr ⟨l, hm, rfl⟩)
        have step : List.find? (fun y => y.productId == l.productId) (x :: xs) =
            List.find? (fun y => y.productId == l.productId) xs :=
          List.find?_cons_of_neg xs hne
        rw [show (fun (y : StockLevelDoc) => y.productId == l.productId) =
          (fun (x : StockLevelDoc) => x.productId == l.productId) from rfl] at step
        rw [step]
        exact ih (List.Nodup.of_cons (by simpa using hnd)) hm

theorem wf_findLevel_self {db : DB} (hwf : db.wf) {l : StockLevelDoc}
    (hl : l ∈ db.levels) : findLevel db l.productId = some l :=
  find?_self_of_nodup db.levels hwf hl

/-- **C7.** `summary()` returns exactly: the number of items with a
tracked stock record, the sum of the per-item aggregate quantities, the
number of tracked items at or below the default low-stock threshold, and
the number of movements whose timestamp lies in the trailing 24-hour
window. (That it performs no remote-dependency call is reflected in the
embedding: `getStockSummary` is a function of the local store and clock
alone, matching the source, which invokes neither `getProductInfo` nor
the breaker.) -/
theorem c7_summary (db : DB) (now : Int) (hwf : db.wf) :
    (getStockSummary db now).totalProducts = (trackedItems db).dedup.length ∧
      (getStockSummary db now).totalQuantity =
        ((trackedItems db).map (fun pid => levelQty db pid)).sum ∧
      (getStockSummary db now).lowStockCount =
        ((trackedItems db).filter
          (fun pid => levelQty db pid ≤ defaultLowStockThreshold)).length ∧
      (getStockSummary db now).recentMovementsCount =
        (db.movements.filter (fun m => now - m.timestamp ≤ msPerDay)).length := by
  have hnodup : (trackedItems db).Nodup := hwf
  have hpt : ∀ l ∈ db.levels, levelQty db l.productId = l.currentQuantity := by
    intro l hl
    unfold levelQty
    rw [wf_findLevel_self hwf hl]
  refine ⟨?_, ?_, ?_, ?_⟩
  · show db.levels.length = (trackedItems db).dedup.length
    rw [List.Nodup.dedup hnodup]
    unfold trackedItems
    rw [List.length_map]
  · show (db.levels.map (fun l => l.currentQuantity)).sum = _
    unfold trackedItems
    rw [List.map_map]
    congr 1
    exact List.map_eq_map_iff.mpr (fun l hl => (hpt l hl).symm)
  · show (db.levels.filter (fun l => l.currentQuantity ≤ defaultLowStockThreshold)).length
      = _
    unfold trackedItems
    rw [List.filter_map, List.length_map]
    congr 1
    refine List.filter_congr ?_
    intro l hl
    simp only [Function.comp, hpt l hl]
  · show (db.movements.filter (fun m => now - msPerDay ≤ m.timestamp)).length = _
    congr 1
    refine List.filter_congr ?_
    intro m _
    simp only [decide_eq_decide]
    omega

theorem c7_summary_witness :
    dbFive.wf ∧
      ((getStockSummary dbFive 100).totalProducts =
          (trackedItems dbFive).dedup.length ∧
        (getStockSummary dbFive 100).totalQuantity =
          ((trackedItems dbFive).map (fun pid => levelQty dbFive pid)).sum ∧
        (getStockSummary dbFive 100).lowStockCount =
          ((trackedItems dbFive).filter
            (fun pid => levelQty dbFive pid ≤ defaultLowStockThreshold)).length ∧
        (getStockSummary dbFive 100).recentMovementsCount =
          (dbFive.movements.filter (fun m => 100 - m.timestamp ≤ msPerDay)).length) :=
  ⟨by unfold DB.wf dbFive; decide, c7_summary dbFive 100 (by unfold DB.wf dbFive; decide)⟩

/-! ## Low-stock alerts (`getLowStockAlerts`) -/

/-- JS `x || d` for an optional string property (`""` is falsy). -/
def jsOrStr (x : Option String) (d : String) : String :=
  match x with
  | some s => if s = "" then d else s
  | none => d

/-- JS `x || d` for an optional numeric property (`0` is falsy). -/
def jsOrInt (x : Option Int) (d : Int) : Int :=
  match x with
  | some n => if n = 0 then d else n
  | none => d

def insertByQtyAsc (l : StockLevelDoc) : List StockLevelDoc → List StockLevelDoc
  | [] => [l]
  | x :: xs =>
      if l.currentQuantity ≤ x.currentQuantity then l :: x :: xs
      else x :: insertByQtyAsc l xs

/-- `stockLevelSchema.statics.getLowStock(threshold)` (`stockLevelModel.js`
lines 47-51): all levels with `currentQuantity ≤ threshold`, sorted
ascending by quantity (insertion sort; Mongo's sort modelled up to tie
order). -/
def getLowStock (db : DB) (threshold : Int) : List StockLevelDoc :=
  (db.levels.filter (fun l => l.currentQuantity ≤ threshold)).foldr insertByQtyAsc []

/-- One alert line of the low-stock response. -/
structure Alert where
  productId : String
  productName : String
  sku : String
  currentQuantity : Int
  threshold : Int
  lastUpdated : Int
  productAvailable : Bool
  deriving DecidableEq, Repr

/-- The object built for one low-stock item inside the
`Promise.allSettled` map (circuit-breaker `stockController.js` lines
507-518): `product?.name || "Unknown"`, `product?.sku || "N/A"`,
`product?.lowStockThreshold || threshold`,
`productAvailable: !product?._isFallback`. `resolver` gives the
`getProductInfo` result for each productId in this request (null when
the lookup failed). -/
def mkAlert (resolver : String → Option ProductObj) (threshold : Int)
    (item : StockLevelDoc) : Alert :=
  let product := resolver item.productId
  { productId := item.productId
    productName := jsOrStr (product.bind (fun p => p.name)) "Unknown"
    sku := jsOrStr (product.bind (fun p => p.sku)) "N/A"
    currentQuantity := item.currentQuantity
    threshold := jsOrInt (product.bind (fun p => p.lowStockThreshold)) threshold
    lastUpdated := item.lastUpdated
    productAvailable := !((product.map (fun p => p.isFallback)).getD false) }

/-- Response of `GET /api/stock/alerts`: `count`, `threshold`, `alerts`,
and the optional warning `"N item(s) could not be fully resolved"`
(modelled by the `N` it carries), spread in only when `failedCount > 0`. -/
structure AlertsResponse where
  count : Nat
  threshold : Int
  alerts : List Alert
  warningCount : Option Nat
  deriving DecidableEq, Repr

/-- `getLowStockAlerts` (circuit-breaker `stockController.js` lines
496-533). The mapped async function cannot reject: `getProductInfo`
catches every error and returns null, and the object literal built from
its result is total; hence every `Promise.allSettled` entry is
fulfilled. `alerts` keeps the fulfilled values and
`failedCount = settled.length - alerts.length`. -/
def getLowStockAlerts (resolver : String → Option ProductObj) (db : DB)
    (threshold : Int) : AlertsResponse :=
  let items := getLowStock db threshold
  let settled := items.map (mkAlert resolver threshold)
  let alerts := settled
  let failedCount := settled.length - alerts.length
  { count := alerts.length
    threshold := threshold
    alerts := alerts
    warningCount := if failedCount > 0 then some failedCount else none }

/-- **C6, counterexample.** With one low-stock item whose resolution
fails (the lookup yields null), the response carries no count of
unresolved items at all: `warningCount` is absent even though exactly one
item could not be resolved. This falsifies "the result includes a count
of the items that could not be resolved". -/
theorem c6_counterexample :
    ((getLowStock dbFive 10).filter
        (fun i => ((fun (_ : String) => (none : Option ProductObj)) i.productId).isNone)).length
        = 1 ∧
      (getLowStockAlerts (fun _ => none) dbFive 10).warningCount = none := by
  constructor
  · rfl
  · rfl

/-- **C6, amended.** A per-item resolution failure does not abort the
batch: an alert line is produced for every aggregate at or below the
threshold — including the items whose resolution failed, which carry the
placeholder name "Unknown" and sku "N/A" but `productAvailable = true`
(the code computes `!product?._isFallback`, and `!undefined` is `true`
when the product is null, so the flag does not mark a failed lookup) —
and the response's failure count only counts rejected lookup promises;
since the lookup helper catches all errors, that count is always zero and
the warning (the count of unresolved items) is never included. -/
theorem c6_partial_alerts (resolver : String → Option ProductObj) (db : DB)
    (threshold : Int) :
    (getLowStockAlerts resolver db threshold).count =
        (getLowStock db threshold).length ∧
      (getLowStockAlerts resolver db threshold).alerts.map (fun a => a.productId) =
        (getLowStock db threshold).map (fun i => i.productId) ∧
      (∀ i ∈ getLowStock db threshold, resolver i.productId = none →
        (mkAlert resolver threshold i).productName = "Unknown" ∧
          (mkAlert resolver threshold i).sku = "N/A" ∧
          (mkAlert resolver threshold i).productAvailable = true) ∧
      (getLowStockAlerts resolver db threshold).warningCount = none := by
  refine ⟨?_, ?_, ?_, ?_⟩
  · show ((getLowStock db threshold).map (mkAlert resolver threshold)).length = _
    rw [List.length_map]
  · show ((getLowStock db threshold).map (mkAlert resolver threshold)).map
      (fun a => a.productId) = _
    rw [List.map_map]
    rfl
  · intro i _ hres
    unfold mkAlert
    rw [hres]
    exact ⟨rfl, rfl, rfl⟩
  · show (if ((getLowStock db threshold).map (mkAlert resolver threshold)).length -
      ((getLowStock db threshold).map (mkAlert resolver threshold)).length > 0
      then some _ else none) = none
    simp

theorem c6_partial_alerts_witness :
    (getLowStockAlerts (fun _ => none) dbFive 10).count = 1 ∧
      (mkAlert (fun _ => none) 10 ⟨"X", 5, 0⟩).productName = "Unknown" ∧
      (getLowStockAlerts (fun _ => none) dbFive 10).warningCount = none := by
  have h := c6_partial_alerts (fun _ => none) dbFive 10
  refine ⟨?_, ?_, h.2.2.2⟩
  · rw [h.1]; rfl
  · exact (h.2.2.1 ⟨"X", 5, 0⟩ (by decide) rfl).1

/-! ## Circuit-breaker factory and registry
(`services/shared/utils/circuitBreaker.js`) -/

/-- Fully-resolved opossum options after `{...DEFAULT_OPTIONS, ...options}`. -/
structure BreakerOptions where
  timeout : Int
  errorThresholdPercentage : Int
  resetTimeout : Int
  volumeThreshold : Int
  rollingCountTimeout : Int
  rollingCountBuckets : Int
  deriving DecidableEq, Repr

/-- `DEFAULT_OPTIONS` (`circuitBreaker.js` lines 18-25). -/
def DEFAULT_OPTIONS : BreakerOptions :=
  { timeout := 5000
    errorThresholdPercentage := 50
    resetTimeout := 30000
    volumeThreshold := 3
    rollingCountTimeout := 10000
    rollingCountBuckets := 10 }

/-- A caller-supplied `options` object: absent keys fall back to
`DEFAULT_OPTIONS` under the spread merge. -/
structure OptionsOverride where
  timeout : Option Int := none
  errorThresholdPercentage : Option Int := none
  resetTimeout : Option Int := none
  volumeThreshold : Option Int := none
  rollingCountTimeout : Option Int := none
  rollingCountBuckets : Option Int := none
  deriving DecidableEq, Repr

/-- `{ ...DEFAULT_OPTIONS, ...options }`. -/
def mergeOptions (o : OptionsOverride) : BreakerOptions :=
  { timeout := o.timeout.getD DEFAULT_OPTIONS.timeout
    errorThresholdPercentage :=
      o.errorThresholdPercentage.getD DEFAULT_OPTIONS.errorThresholdPercentage
    resetTimeout := o.resetTimeout.getD DEFAULT_OPTIONS.resetTimeout
    volumeThreshold := o.volumeThreshold.getD DEFAULT_OPTIONS.volumeThreshold
    rollingCountTimeout := o.rollingCountTimeout.getD DEFAULT_OPTIONS.rollingCountTimeout
    rollingCountBuckets := o.rollingCountBuckets.getD DEFAULT_OPTIONS.rollingCountBuckets }

/-- The value `createCircuitBreaker` returns: a breaker configured with the
service name, the merged options, and the optional fallback function
(`breaker.fallback(fallbackFn)` is only installed when one is passed). -/
structure Breaker where
  serviceName : String
  opts : BreakerOptions
  fallbackFn : Option (Unit → ProductObj)

/-- `createCircuitBreaker(serviceName, options, fallbackFn)`
(`circuitBreaker.js` lines 47-115). -/
def createCircuitBreaker (serviceName : String) (options : OptionsOverride)
    (fallbackFn : Option (Unit → ProductObj)) : Breaker :=
  { serviceName := serviceName, opts := mergeOptions options, fallbackFn := fallbackFn }

/-- The module-level `registry = new Map()` (`circuitBreaker.js` line 119),
as its ordered entry list. -/
abbrev Registry : Type := List (String × Breaker)

def regFind (reg : Registry) (serviceName : String) : Option Breaker :=
  (reg.find? (fun e => e.1 == serviceName)).map (fun e => e.2)

/-- `getCircuitBreaker(serviceName, options, fallbackFn)`
(`circuitBreaker.js` lines 129-137): `registry.has` / `registry.set` /
`registry.get`, returning the breaker and the (possibly-extended)
registry. -/
def getCircuitBreaker (serviceName : String) (options : OptionsOverride)
    (fallbackFn : Option (Unit → ProductObj)) (reg : Registry) :
    Breaker × Registry :=
  match reg.find? (fun e => e.1 == serviceName) with
  | some e => (e.2, reg)
  | none =>
      let b := createCircuitBreaker serviceName options fallbackFn
      (b, reg ++ [(serviceName, b)])

/-- **C9.** The registry's get-or-create is idempotent in the service
name and ignores later options/fallbacks: (i) a second call for the same
name — whatever options `o2` and fallback `f2` it passes — returns
exactly the breaker the first call returned and leaves the registry
unchanged; (ii) a registered binding survives a call for any name; and
(iii) a call for a registered name returns the registered instance and
changes nothing. Together (by induction over call sequences) every call
after the first returns the instance created by the first call. -/
theorem c9_registry_idempotent (serviceName : String) (o1 o2 : OptionsOverride)
    (f1 f2 : Option (Unit → ProductObj)) (reg : Registry) :
    ((getCircuitBreaker serviceName o2 f2
          (getCircuitBreaker serviceName o1 f1 reg).2).1 =
        (getCircuitBreaker serviceName o1 f1 reg).1 ∧
      (getCircuitBreaker serviceName o2 f2
          (getCircuitBreaker serviceName o1 f1 reg).2).2 =
        (getCircuitBreaker serviceName o1 f1 reg).2) ∧
      (∀ (b : Breaker) (other : String) (o3 : OptionsOverride)
          (f3 : Option (Unit → ProductObj)), regFind reg serviceName = some b →
        regFind (getCircuitBreaker other o3 f3 reg).2 serviceName = some b) ∧
      (∀ b : Breaker, regFind reg serviceName = some b →
        getCircuitBreaker serviceName o2 f2 reg = (b, reg)) := by
  refine ⟨?_, ?_, ?_⟩
  · rcases hfind : reg.find? (fun e => e.1 == serviceName) with _ | e
    · simp only [getCircuitBreaker, hfind]
      have hsecond : (reg ++
          [(serviceName, createCircuitBreaker serviceName o1 f1)]).find?
            (fun e => e.1 == serviceName) =
          some (serviceName, createCircuitBreaker serviceName o1 f1) := by
        rw [List.find?_append, hfind, Option.none_or]
        exact List.find?_cons_of_pos _ (by simp)
      simp only [hsecond]
      constructor <;> trivial
    · simp only [getCircuitBreaker, hfind]
      constructor <;> trivial
  · intro b other o3 f3 hreg
    rcases hfind : reg.find? (fun e => e.1 == other) with _ | e
    · unfold regFind at hreg ⊢
      simp only [getCircuitBreaker, hfind]
      rcases hfind2 : reg.find? (fun e => e.1 == serviceName) with _ | e2
      · rw [hfind2] at hreg
        simp at hreg
      · rw [hfind2] at hreg
        rw [List.find?_append, hfind2]
        simpa using hreg
    · unfold regFind at hreg ⊢
      simp only [getCircuitBreaker, hfind]
      exact hreg
  · intro b hreg
    unfold regFind at hreg
    rcases hfind : reg.find? (fun e => e.1 == serviceName) with _ | e
    · rw [hfind] at hreg
      exact Option.noConfusion hreg
    · rw [hfind] at hreg
      simp at hreg
      simp only [getCircuitBreaker, hfind]
      rw [hreg]

/-- The stock controller's breaker registration for the products service
(circuit-breaker `stockController.js` lines 285-300). -/
def productsBreakerOverride : OptionsOverride :=
  { timeout := some 5000
    errorThresholdPercentage := some 50
    resetTimeout := some 30000
    volumeThreshold := some 3 }

def productsRegistry : Registry :=
  (getCircuitBreaker "products-service" productsBreakerOverride
    (some (fun _ => productsFallbackObj)) ([] : Registry)).2

theorem c9_registry_idempotent_witness :
    regFind productsRegistry "products-service" =
        some (createCircuitBreaker "products-service" productsBreakerOverride
          (some (fun _ => productsFallbackObj))) ∧
      getCircuitBreaker "products-service" { timeout := some 1 } none
          productsRegistry =
        (createCircuitBreaker "products-service" productsBreakerOverride
          (some (fun _ => productsFallbackObj)), productsRegistry) := by
  have hr : regFind productsRegistry "products-service" =
      some (createCircuitBreaker "products-service" productsBreakerOverride
        (some (fun _ => productsFallbackObj))) := rfl
  exact ⟨hr, (c9_registry_idempotent "products-service" productsBreakerOverride
    { timeout := some 1 } (some (fun _ => productsFallbackObj)) none
    productsRegistry).2.2 _ hr⟩

/-! ## The circuit-breaker state machine

Modelled from the spec: the state machine itself lives in the `opossum`
npm dependency, not in this repository — `circuitBreaker.js` only
configures it (`DEFAULT_OPTIONS`) and wires events. The model below
follows spec §4.2 (states, transition triggers) and §9 (the
`OPEN → HALF_OPEN` transition implemented as a lazy monotonic-clock check
at the next call), instantiated with the source's `DEFAULT_OPTIONS`:
`volumeThreshold = 3`, `errorThresholdPercentage = 50`, rolling window
`rollingCountTimeout = 10000` ms, `resetTimeout = 30000` ms. -/

inductive CBState where
  | closed
  | halfOpen
  | opened
  deriving DecidableEq, Repr

/-- Modelled from the spec: a breaker's mutable state — the stored state,
the rolling window of completed call outcomes `(completion time,
success?)`, and the time the breaker last entered OPEN. -/
structure CB where
  state : CBState
  window : List (Int × Bool)
  openedAt : Int
  deriving DecidableEq, Repr

def initCB : CB := { state := .closed, window := [], openedAt := 0 }

/-- An outcome still inside the trailing `rollingCountTimeout` window. -/
def withinWindow (now : Int) (e : Int × Bool) : Bool :=
  decide (now - DEFAULT_OPTIONS.rollingCountTimeout < e.1)

/-- Modelled from the spec (§4.2 `OPEN → HALF_OPEN`, §9 lazy clock): the
state an arriving call observes — OPEN becomes HALF_OPEN once
`resetTimeout` has elapsed since entering OPEN. -/
def effectiveState (cb : CB) (now : Int) : CBState :=
  if cb.state = .opened ∧ cb.openedAt + DEFAULT_OPTIONS.resetTimeout ≤ now then
    .halfOpen
  else cb.state

/-- Result of one `execute`: the call ran (with the given success), or it
was rejected without attempting the call (fallback used). -/
inductive ExecResult where
  | ran (succeeded : Bool)
  | rejected
  deriving DecidableEq, Repr

/-- Modelled from the spec (§4.2 `execute`): in OPEN, reject without
calling; in HALF_OPEN, run the probe — success closes the breaker and
clears the failure streak, failure reopens it and restarts the reset
timer; in CLOSED, run the call, record its outcome in the rolling window,
and open when the completed-call volume reaches `volumeThreshold` and the
failure percentage reaches `errorThresholdPercentage`. `call` is whether
the underlying dependency call would succeed now. -/
def executeCB (cb : CB) (now : Int) (call : Bool) : ExecResult × CB :=
  match effectiveState cb now with
  | .opened => (.rejected, cb)
  | .halfOpen =>
      if call then
        (.ran true, { state := .closed, window := [], openedAt := cb.openedAt })
      else
        (.ran false, { state := .opened, window := [], openedAt := now })
  | .closed =>
      let w := (cb.window.filter (withinWindow now)) ++ [(now, call)]
      let total : Int := w.length
      let fails : Int := (w.filter (fun e => !e.2)).length
      let s : CBState :=
        if DEFAULT_OPTIONS.volumeThreshold ≤ total ∧
            DEFAULT_OPTIONS.errorThresholdPercentage * total ≤ fails * 100 then
          .opened
        else .closed
      (.ran call,
        { state := s, window := w,
          openedAt := if s = .opened then now else cb.openedAt })

set_option maxRecDepth 8000 in
/-- **C4.** Under the configured defaults (`volumeThreshold = 3`,
`errorThresholdPercentage = 50`, 10-second rolling window,
`resetTimeout = 30000` ms): (i) the breaker starts CLOSED; (ii) three
consecutive failing calls inside one rolling window drive it
CLOSED → OPEN, stamping the failure time; (iii) once the reset duration
has elapsed, the next `execute` runs its call in HALF_OPEN (it is not
rejected); (iv) a successful probe in HALF_OPEN yields CLOSED with the
failure streak cleared; (v) a failing probe yields OPEN with the reset
timer restarted at the probe time. -/
theorem c4_breaker_state_machine (t1 t2 t3 : Int) (cb : CB) (now : Int)
    (h12 : t1 ≤ t2) (h23 : t2 ≤ t3) (hwin : t3 - t1 < 10000)
    (hopen : cb.state = .opened) (helapsed : cb.openedAt + 30000 ≤ now) :
    initCB.state = .closed ∧
      ((executeCB (executeCB (executeCB initCB t1 false).2 t2 false).2 t3 false).2.state
          = .opened ∧
        (executeCB (executeCB (executeCB initCB t1 false).2 t2 false).2 t3
          false).2.openedAt = t3) ∧
      (effectiveState cb now = .halfOpen ∧
        ∀ call, (executeCB cb now call).1 = .ran call) ∧
      ((executeCB cb now true).2.state = .closed ∧
        (executeCB cb now true).2.window = []) ∧
      ((executeCB cb now false).2.state = .opened ∧
        (executeCB cb now false).2.openedAt = now) := by
  have heff : effectiveState cb now = .halfOpen := by
    unfold effectiveState
    rw [if_pos ⟨hopen, by simpa using helapsed⟩]
  have hw21 : withinWindow t2 (t1, false) = true := by
    unfold withinWindow
    simp only [decide_eq_true_eq, DEFAULT_OPTIONS]
    omega
  have hw31 : withinWindow t3 (t1, false) = true := by
    unfold withinWindow
    simp only [decide_eq_true_eq, DEFAULT_OPTIONS]
    omega
  have hw32 : withinWindow t3 (t2, false) = true := by
    unfold withinWindow
    simp only [decide_eq_true_eq, DEFAULT_OPTIONS]
    omega
  have e1 : executeCB initCB t1 false =
      (.ran false, { state := .closed, window := [(t1, false)], openedAt := 0 }) := rfl
  have e2 : executeCB { state := .closed, window := [(t1, false)], openedAt := 0 }
      t2 false =
      (.ran false,
        { state := .closed, window := [(t1, false), (t2, false)], openedAt := 0 }) := by
    unfold executeCB effectiveState
    simp only [List.filter_cons, List.filter_nil, hw21]
    rw [if_neg (fun hc => absurd hc.1 (by simp))]
    rfl
  have e3 : executeCB
      { state := .closed, window := [(t1, false), (t2, false)], openedAt := 0 }
      t3 false =
      (.ran false,
        { state := .opened, window := [(t1, false), (t2, false), (t3, false)],
          openedAt := t3 }) := by
    unfold executeCB effectiveState
    simp only [List.filter_cons, List.filter_nil, hw31, hw32]
    rw [if_neg (fun hc => absurd hc.1 (by simp))]
    rfl
  refine ⟨rfl, ?_, ⟨heff, ?_⟩, ?_, ?_⟩
  · rw [e1, e2, e3]
    exact ⟨rfl, rfl⟩
  · intro call
    unfold executeCB
    rw [heff]
    cases call <;> rfl
  · unfold executeCB
    rw [heff]
    exact ⟨rfl, rfl⟩
  · unfold executeCB
    rw [heff]
    exact ⟨rfl, rfl⟩

theorem c4_breaker_state_machine_witness :
    ((0 : Int) ≤ 1 ∧ (1 : Int) ≤ 2 ∧ (2 : Int) - 0 < 10000 ∧
        (CB.mk .opened [] 2).state = .opened ∧
        (CB.mk .opened [] 2).openedAt + 30000 ≤ 30002) ∧
      (initCB.state = .closed ∧
        ((executeCB (executeCB (executeCB initCB 0 false).2 1 false).2 2
            false).2.state = .opened ∧
          (executeCB (executeCB (executeCB initCB 0 false).2 1 false).2 2
            false).2.openedAt = 2) ∧
        (effectiveState (CB.mk .opened [] 2) 30002 = .halfOpen ∧
          ∀ call, (executeCB (CB.mk .opened [] 2) 30002 call).1 = .ran call) ∧
        ((executeCB (CB.mk .opened [] 2) 30002 true).2.state = .closed ∧
          (executeCB (CB.mk .opened [] 2) 30002 true).2.window = []) ∧
        ((executeCB (CB.mk .opened [] 2) 30002 false).2.state = .opened ∧
          (executeCB (CB.mk .opened [] 2) 30002 false).2.openedAt = 30002)) :=
  ⟨⟨by decide, by decide, by decide, rfl, by decide⟩,
    c4_breaker_state_machine 0 1 2 (CB.mk .opened [] 2) 30002 (by decide) (by decide)
      (by decide) rfl (by decide)⟩

/-! ## C5: the degraded-mode entry path -/

/-- **C5.** Code bug, evaluated at the failing input. When the products
lookup fails (or the breaker is OPEN), `productsBreaker.execute` resolves
with the configured fallback object `{ _isFallback: true, ... }`
(`stockController.js` lines 293-300), whose declared purpose — per the
source's own comments at lines 293 ("return a minimal object so the stock
operation can continue") and 341-342 ("If fallback was used, _isFallback
is true ... We still allow the stock operation to proceed") — is to let
`addStockEntry` succeed in degraded mode. But `getProductInfo` unwraps
every resolved value as `data?.data || data?.product || null`, and the
fallback object has neither a `data` nor a `product` property, so the
helper returns null and `addStockEntry` answers 404 "Product not found",
appending nothing: the degraded path is dead code. The third conjunct
shows the operation does succeed with the degraded flag whenever a
fallback-marked product object actually reaches the controller, locating
the defect in the unwrap line. -/
theorem c5_fallback_discarded :
    getProductInfo (.resolved execDataOfFallback) = none ∧
      addStockEntry ⟨"X", 10, "restock", none, "u1"⟩ (.resolved execDataOfFallback)
          dbFive 50 = (.notFound, dbFive) ∧
      (addStockEntry ⟨"X", 10, "restock", none, "u1"⟩
          (.resolved (execDataOfSuccess productsFallbackObj)) dbFive 50).1 =
        .entryCreated ⟨"X", .entry, 10, "restock", none, "u1", 50⟩ 15 true :=
  ⟨rfl, by decide, by decide⟩

/-! ## C3: concurrent exits and the check-then-act race

`removeStockExit` is not atomic: between the sufficiency check (run in
the continuation of `await StockLevel.getOrCreate`) and the persistence
of the new quantity (`await stockLevel.updateQuantity(-quantity)`,
which mutates the request's own in-memory document read earlier and then
saves it) lie further `await` points (`StockMovement.create`), so steps
of concurrent requests for the same item interleave. The model below
gives each in-flight exit request a phase per `await` boundary, after a
successful product resolution. -/

inductive ExitPhase where
  | ready
  | passedCheck (doc : StockLevelDoc)
  | appended (doc : StockLevelDoc)
  | succeeded (finalQty : Int)
  | failedInsufficient (available requested : Int)
  | errored
  deriving DecidableEq, Repr

structure ExitTask where
  req : StockRequest
  phase : ExitPhase
  deriving DecidableEq, Repr

/-- One scheduler step of an in-flight `removeStockExit` request:
`.ready` runs `getOrCreate` and the synchronous sufficiency check on the
returned document; `.passedCheck` runs `StockMovement.create`;
`.appended` runs `updateQuantity(-quantity)` (on the stale document read
in `.ready`) and, when it does not throw, persists the saved copy. -/
def stepExit (db : DB) (t : ExitTask) (now : Int) : DB × ExitTask :=
  match t.phase with
  | .ready =>
      let g := getOrCreate db t.req.productId now
      if g.1.currentQuantity < t.req.quantity then
        (g.2, { t with phase := .failedInsufficient g.1.currentQuantity t.req.quantity })
      else
        (g.2, { t with phase := .passedCheck g.1 })
  | .passedCheck doc =>
      let mv : Movement :=
        { productId := t.req.productId, type := .exit, quantity := t.req.quantity
          reason := t.req.reason, reference := t.req.reference
          performedBy := t.req.userId, timestamp := now }
      ({ db with movements := db.movements ++ [mv] }, { t with phase := .appended doc })
  | .appended doc =>
      let ur := updateQuantity doc (-t.req.quantity) now
      match ur.saved with
      | none => (db, { t with phase := .errored })
      | some savedDoc =>
          (saveLevel db savedDoc,
            { t with phase := .succeeded savedDoc.currentQuantity })
  | _ => (db, t)

def schedStep (now : Int) (acc : DB × List ExitTask) (i : Nat) : DB × List ExitTask :=
  match acc.2.get? i with
  | none => acc
  | some t =>
      let r := stepExit acc.1 t now
      (r.1, acc.2.set i r.2)

/-- Run a schedule (a list of task indices; each entry lets that task
take its next step). -/
def runExitSched (db : DB) (tasks : List ExitTask) (sched : List Nat) (now : Int) :
    DB × List ExitTask :=
  sched.foldl (schedStep now) (db, tasks)

def raceTasks : List ExitTask :=
  [⟨⟨"X", 4, "sale", none, "u1"⟩, .ready⟩, ⟨⟨"X", 4, "sale", none, "u2"⟩, .ready⟩]

/-- Both requests read before either writes. -/
def raceSchedule : List Nat := [0, 1, 0, 1, 0, 1]

def raceResult : DB × List ExitTask := runExitSched dbFive raceTasks raceSchedule 50

/-- **C3.** Code bug, evaluated at the failing input. Starting from stock
5, two concurrent exits of 4 each (sum 8 > 5) interleaved as
read–read–append–append–save–save BOTH succeed — the maximum prefix whose
cumulative quantity fits the stock is one request, so the claim's "exactly
the maximum prefix succeeds" and the atomicity of check+update fail on
this code. The final aggregate is 1 (never negative, because each save
writes its own stale non-negative value), but the ledger invariant is
broken: the movement history implies 5 − 8 = −3 while the stored
aggregate is 1. -/
theorem c3_check_then_act_race :
    raceResult.2.map (fun t => t.phase) =
        [.succeeded 1, .succeeded 1] ∧
      levelQty raceResult.1 "X" = 1 ∧
      entrySum raceResult.1.movements "X" - exitSum raceResult.1.movements "X" = -3 ∧
      0 ≤ levelQty raceResult.1 "X" ∧
      ¬ Inv raceResult.1 := by
  refine ⟨by decide, by decide, by decide, by decide, ?_⟩
  intro h
  exact absurd (h "X").1 (by decide)

end StockMS
